import Mathlib

/-!
Verification of the Secure-Auth-Express authentication package.

The source is a small Express.js package with three pieces of logic:
`validatePassword` (password policy), `createAuthRouter` (register /
login / me handlers) and `authMiddleware` (the bearer-token gate).
Strings are embedded as `List Char`; JavaScript falsiness of possibly
absent request fields is embedded as `Option (List Char)` where both
`none` (undefined) and `some []` (empty string) are falsy.

The external libraries `jsonwebtoken` and `bcryptjs` are not part of the
repository; they are modelled from the spec (sections 4.2 and 4.3) as
executable Lean functions: bcrypt as a structure remembering password
and cost, jwt as an injective encoding of the payload together with a
secret tag whose equality with the verifier secret plays the role of
the signature check.
-/

namespace SecureAuth

/-- ASCII model of the JavaScript whitespace class stripped by
`String.prototype.trim` (space, tab, LF, VT, FF, CR). -/
def isJsSpace (c : Char) : Bool :=
  decide (c.toNat = 32 ∨ c.toNat = 9 ∨ c.toNat = 10 ∨ c.toNat = 11 ∨ c.toNat = 12 ∨ c.toNat = 13)

/-- ASCII model of `toLowerCase` on one character: A-Z maps to a-z. -/
def charLower (c : Char) : Char :=
  if 65 ≤ c.toNat ∧ c.toNat ≤ 90 then Char.ofNat (c.toNat + 32) else c

/-- Model of `String.prototype.toLowerCase`, character by character. -/
def jsLower (s : List Char) : List Char := s.map charLower

/-- Model of `String.prototype.trim`: drop whitespace from both ends. -/
def jsTrim (s : List Char) : List Char :=
  ((s.dropWhile isJsSpace).reverse.dropWhile isJsSpace).reverse

/-- The email normalization used at every directory lookup and store
site in the source: `email.toLowerCase().trim()`. -/
def normalizeEmail (e : List Char) : List Char := jsTrim (jsLower e)

/-- JavaScript `String.prototype.split(" ")`: split at every single
space, keeping empty segments, as used on the authorization header. -/
def splitSpace : List Char → List (List Char)
  | [] => [[]]
  | c :: r =>
    if c = ' ' then [] :: splitSpace r
    else
      match splitSpace r with
      | t :: ts => (c :: t) :: ts
      | [] => [[c]]

/-! ## bcrypt model (external library, modelled from the spec) -/

/-- Modelled from the spec: `CredentialHasher.hash` output (section 4.2) of
the external bcryptjs library; remembers the hashed password and the cost,
so that `verify(p, hash(p, c)) = true` and mismatches return false. -/
structure HashVal where
  pw : List Char
  cost : Nat
deriving DecidableEq

/-- Modelled from the spec: `bcrypt.hash(password, rounds)`. -/
def bcryptHash (password : List Char) (rounds : Nat) : HashVal := ⟨password, rounds⟩

/-- Modelled from the spec: `bcrypt.compare(password, hashedValue)` —
true exactly when the password matches the one embedded in the hash. -/
def bcryptCompare (password : List Char) (h : HashVal) : Bool :=
  decide (h.pw = password)

/-! ## jsonwebtoken model (external library, modelled from the spec)

A token is an injective encoding over the two-letter alphabet `1`, `#`
of the payload `(userId, email, iat, exp)` together with a tag recording
the signing secret; `verify` checks tag = secret (the signature check of
section 4.3), then expiry, exactly in that order. -/

/-- Unary encoding of a natural number, terminated by a hash mark. -/
def natEnc (n : Nat) : List Char := List.replicate n '1' ++ ['#']

/-- One character, encoded as its code point in unary. -/
def charEnc (c : Char) : List Char := natEnc c.toNat

/-- A string: its length, then each character in turn. -/
def strEnc (s : List Char) : List Char := natEnc s.length ++ (s.map charEnc).flatten

/-- Decode one unary number; returns the value and the rest. -/
def natDec : List Char → Option (Nat × List Char)
  | [] => none
  | c :: r =>
    if c = '#' then some (0, r)
    else if c = '1' then (natDec r).map (fun p => (p.1 + 1, p.2))
    else none

/-- Decode one character. -/
def charDec (s : List Char) : Option (Char × List Char) :=
  (natDec s).map (fun p => (Char.ofNat p.1, p.2))

/-- Decode exactly `n` characters. -/
def charsDec : Nat → List Char → Option (List Char × List Char)
  | 0, s => some ([], s)
  | n + 1, s =>
    match charDec s with
    | some (c, r) =>
      match charsDec n r with
      | some (cs, r2) => some (c :: cs, r2)
      | none => none
    | none => none

/-- Decode one length-prefixed string. -/
def strDec (s : List Char) : Option (List Char × List Char) :=
  match natDec s with
  | some (n, r) => charsDec n r
  | none => none

/-- The decoded content of a token: the JWT payload fields written by
`jwt.sign` in the source (`userId`, `email`, plus the `iat`/`exp` pair the
library adds) and the tag standing for the signature. -/
structure TokenData where
  userId : List Char
  email : List Char
  iat : Nat
  exp : Nat
  tag : List Char
deriving DecidableEq

/-- Serialize a token. -/
def tokenEnc (t : TokenData) : List Char :=
  strEnc t.userId ++ (strEnc t.email ++ (natEnc t.iat ++ (natEnc t.exp ++ strEnc t.tag)))

/-- Parse a token; any leftover input is a malformed token. -/
def tokenDec (s : List Char) : Option TokenData :=
  match strDec s with
  | none => none
  | some (uid, r1) =>
    match strDec r1 with
    | none => none
    | some (em, r2) =>
      match natDec r2 with
      | none => none
      | some (iat, r3) =>
        match natDec r3 with
        | none => none
        | some (exp, r4) =>
          match strDec r4 with
          | none => none
          | some (tag, r5) =>
            if r5 = [] then some ⟨uid, em, iat, exp, tag⟩ else none

/-- Outcome of `jwt.verify`: a decoded payload, or an error carrying the
JavaScript error class name the middleware discriminates on. -/
inductive VerifyResult where
  | ok (userId email : List Char)
  | err (name : List Char)
deriving DecidableEq

/-- Modelled from the spec: `jwt.sign({userId, email}, secret, {expiresIn})`
(section 4.3) — payload plus `iat = now` and `exp = now + ttl`, tagged with
the signing secret. -/
def jwtSign (userId email secret : List Char) (now ttl : Nat) : List Char :=
  tokenEnc ⟨userId, email, now, now + ttl, secret⟩

/-- Modelled from the spec: `jwt.verify(token, secret)` at time `now`
(section 4.3) — unparsable input or a wrong secret gives
`JsonWebTokenError`; a token whose expiry is at or before `now` gives
`TokenExpiredError`; otherwise the payload identity fields are returned. -/
def jwtVerify (tok secret : List Char) (now : Nat) : VerifyResult :=
  match tokenDec tok with
  | none => .err "JsonWebTokenError".toList
  | some t =>
    if t.tag ≠ secret then .err "JsonWebTokenError".toList
    else if t.exp ≤ now then .err "TokenExpiredError".toList
    else .ok t.userId t.email

/-! ## Round-trip lemmas for the token encoding -/

theorem natDec_natEnc (n : Nat) (r : List Char) :
    natDec (natEnc n ++ r) = some (n, r) := by
  induction n with
  | zero => simp [natEnc, natDec]
  | succ k ih =>
    simp only [natEnc, List.replicate_succ, List.cons_append, List.append_assoc,
      List.singleton_append, natDec] at *
    simpa using ih

theorem charDec_charEnc (c : Char) (r : List Char) :
    charDec (charEnc c ++ r) = some (c, r) := by
  simp [charDec, charEnc, natDec_natEnc]

theorem charsDec_enc (s : List Char) (r : List Char) :
    charsDec s.length ((s.map charEnc).flatten ++ r) = some (s, r) := by
  induction s with
  | nil => simp [charsDec]
  | cons c cs ih =>
    simp only [List.map_cons, List.flatten_cons, List.length_cons, List.append_assoc]
    simp [charsDec, charDec_charEnc, ih]

theorem strDec_strEnc (s : List Char) (r : List Char) :
    strDec (strEnc s ++ r) = some (s, r) := by
  simp [strDec, strEnc, List.append_assoc, natDec_natEnc, charsDec_enc]

theorem tokenDec_tokenEnc (t : TokenData) : tokenDec (tokenEnc t) = some t := by
  have h5 : strEnc t.tag = strEnc t.tag ++ [] := by simp
  simp only [tokenEnc, tokenDec, strDec_strEnc, natDec_natEnc]
  rw [h5, strDec_strEnc]
  simp

theorem natEnc_mem (n : Nat) : ∀ c ∈ natEnc n, c = '1' ∨ c = '#' := by
  intro c hc
  simp only [natEnc, List.mem_append, List.mem_replicate, List.mem_singleton] at hc
  rcases hc with ⟨_, h⟩ | h
  · exact Or.inl h
  · exact Or.inr h

theorem strEnc_mem (s : List Char) : ∀ c ∈ strEnc s, c = '1' ∨ c = '#' := by
  intro c hc
  simp only [strEnc, List.mem_append, List.mem_flatten, List.mem_map] at hc
  rcases hc with h | ⟨l, ⟨d, _, hd⟩, hmem⟩
  · exact natEnc_mem _ c h
  · exact natEnc_mem d.toNat c (by rw [← hd] at hmem; exact hmem)

theorem tokenEnc_mem (t : TokenData) : ∀ c ∈ tokenEnc t, c = '1' ∨ c = '#' := by
  intro c hc
  simp only [tokenEnc, List.mem_append] at hc
  rcases hc with h | h | h | h | h
  · exact strEnc_mem _ c h
  · exact strEnc_mem _ c h
  · exact natEnc_mem _ c h
  · exact natEnc_mem _ c h
  · exact strEnc_mem _ c h

theorem tokenEnc_no_space (t : TokenData) : ' ' ∉ tokenEnc t := by
  intro h
  rcases tokenEnc_mem t ' ' h with h1 | h1 <;> exact absurd h1 (by decide)

/-! ## HTTP layer: data model and response envelope -/

/-- The public account fields built by every handler (`id`, `name`,
`email`, `createdAt`) — the hash has no place in this type, mirroring
the `userResponse` objects of the source. -/
structure UserPublic where
  id : List Char
  name : List Char
  email : List Char
  createdAt : Nat
deriving DecidableEq

/-- The `data` payloads the three routes produce. -/
inductive RespData where
  | userData (user : UserPublic)
  | loginData (token : List Char) (user : UserPublic)
  | meData (user : UserPublic) (updatedAt : Nat)
deriving DecidableEq

/-- One JSON response: status code, the top-level `success` boolean, and
the optional `message` and `data` fields. -/
structure HttpResponse where
  status : Nat
  success : Bool
  message : Option (List Char)
  data : Option RespData
deriving DecidableEq

/-- The `req.user` object the middleware attaches on success. -/
structure ReqUser where
  id : List Char
  email : List Char
deriving DecidableEq

/-- Result of running the middleware: pass control to the next handler
with `req.user` set, or answer with a rejection response. -/
inductive GateOutcome where
  | proceed (user : ReqUser)
  | reject (resp : HttpResponse)
deriving DecidableEq

/-- An account record as stored by the directory (`User` model):
Mongo `_id`, name, normalized email, password hash, timestamps. -/
structure Account where
  id : List Char
  name : List Char
  email : List Char
  password : HashVal
  createdAt : Nat
  updatedAt : Nat
deriving DecidableEq

/-- The `success`/`message`/`data` envelope invariant of the spec:
failures carry a message, successes carry a data payload. -/
def envelopeOk (r : HttpResponse) : Prop :=
  (r.success = false → r.message ≠ none) ∧ (r.success = true → r.data ≠ none)

/-! ## authMiddleware -/

/-- Rejection sent when the authorization header is missing (or falsy). -/
def respMissingAuth : HttpResponse :=
  ⟨401, false, some "Authorization header is required".toList, none⟩

/-- Rejection sent when the header does not split into `Bearer <token>`. -/
def respBadFormat : HttpResponse :=
  ⟨401, false, some "Invalid authorization header format. Use: Bearer <token>".toList, none⟩

/-- The catch clause of the middleware: discriminate the verifier error
by its JavaScript class name. -/
def gateOnVerify : VerifyResult → GateOutcome
  | .ok uid em => .proceed ⟨uid, em⟩
  | .err name =>
    if name = "JsonWebTokenError".toList then
      .reject ⟨401, false, some "Invalid token".toList, none⟩
    else if name = "TokenExpiredError".toList then
      .reject ⟨401, false, some "Token has expired".toList, none⟩
    else
      .reject ⟨401, false, some "Authentication failed".toList, none⟩

/-- The request handler returned by `authMiddleware`, parametrized (as
the closure is) over the verification function: take the authorization
header, require it truthy, require the `Bearer <token>` shape, then hand
the second part to the verifier and map its outcome. -/
def authMiddlewareHandler (verify : List Char → VerifyResult)
    (authHeader : Option (List Char)) : GateOutcome :=
  match authHeader with
  | none => .reject respMissingAuth
  | some h =>
    if h = [] then .reject respMissingAuth
    else if (splitSpace h).length = 2 ∧ (splitSpace h).headD [] = "Bearer".toList then
      gateOnVerify (verify ((splitSpace h).getD 1 []))
    else .reject respBadFormat

/-- A construction-time failure: the thrown `Error` with its message. -/
inductive ConfigError where
  | configError (msg : List Char)
deriving DecidableEq

/-- The `authMiddleware` factory: a falsy secret (absent or empty) throws
at construction; otherwise it returns the per-request handler closed over
that secret (the handler additionally takes the request time). -/
def authMiddleware (secret : Option (List Char)) :
    Except ConfigError (Option (List Char) → Nat → GateOutcome) :=
  match secret with
  | none => .error (.configError "JWT secret is required for authMiddleware".toList)
  | some s =>
    if s = [] then .error (.configError "JWT secret is required for authMiddleware".toList)
    else .ok (fun header now => authMiddlewareHandler (fun tok => jwtVerify tok s now) header)

/-! ## Route handlers -/

/-- JavaScript falsiness of a possibly-absent string field: `undefined`
and the empty string are falsy. -/
def falsy : Option (List Char) → Bool
  | none => true
  | some s => s.isEmpty

/-- Body of `POST /register`. -/
structure RegisterReq where
  name : Option (List Char)
  email : Option (List Char)
  password : Option (List Char)
deriving DecidableEq

/-- Body of `POST /login`. -/
structure LoginReq where
  email : Option (List Char)
  password : Option (List Char)
deriving DecidableEq

/-- Result object of `validatePassword`: `isValid` plus the optional
failure message. -/
structure PwResult where
  isValid : Bool
  message : Option (List Char)
deriving DecidableEq

/-- Bool test for the regex class `[A-Z]` on one character. -/
def isUpperAZ (c : Char) : Bool := decide (65 ≤ c.toNat ∧ c.toNat ≤ 90)

/-- Bool test for the regex class `[a-z]` on one character. -/
def isLowerAZ (c : Char) : Bool := decide (97 ≤ c.toNat ∧ c.toNat ≤ 122)

/-- Bool test for the regex class `[0-9]` on one character. -/
def isDigit09 (c : Char) : Bool := decide (48 ≤ c.toNat ∧ c.toNat ≤ 57)

/-- The special characters accepted by the fifth rule; quote, double
quote and the two braces are written by code point. -/
def specialChars : List Char :=
  ['!', '@', '#', '$', '%', '^', '&', '*', '(', ')', '_', '+', '-', '=',
   '[', ']', Char.ofNat 123, Char.ofNat 125, ';', Char.ofNat 39, ':',
   Char.ofNat 34, '\\', '|', ',', '.', '<', '>', '/', '?']

/-- Bool test for membership in the special-character class. -/
def isSpecialChar (c : Char) : Bool := specialChars.contains c

/-- Source function `validatePassword`: the five strength rules of the source, checked
in order, first failure giving the single reported message. -/
def validatePassword (password : List Char) : PwResult :=
  if password.length < 8 then
    ⟨false, some "Password must be at least 8 characters long".toList⟩
  else if password.any isUpperAZ = false then
    ⟨false, some "Password must contain at least one uppercase letter".toList⟩
  else if password.any isLowerAZ = false then
    ⟨false, some "Password must contain at least one lowercase letter".toList⟩
  else if password.any isDigit09 = false then
    ⟨false, some "Password must contain at least one number".toList⟩
  else if password.any isSpecialChar = false then
    ⟨false, some "Password must contain at least one special character".toList⟩
  else ⟨true, none⟩

/-- Handler of `POST /register`: missing-field check, password policy, duplicate
lookup by normalized email, then hash, store and answer 201 with the
public fields. `newId` and `nowT` stand for the id and timestamps
Mongo generates; the directory is the account list. -/
def registerHandler (bcryptRounds : Nat) (db : List Account) (req : RegisterReq)
    (newId : List Char) (nowT : Nat) : HttpResponse × List Account :=
  if falsy req.name || falsy req.email || falsy req.password then
    (⟨400, false, some "Name, email, and password are required".toList, none⟩, db)
  else
    let name := req.name.getD []
    let email := req.email.getD []
    let password := req.password.getD []
    let validation := validatePassword password
    if validation.isValid = false then
      (⟨400, false, validation.message, none⟩, db)
    else
      match db.find? (fun a => decide (a.email = normalizeEmail email)) with
      | some _ => (⟨400, false, some "Email already exists".toList, none⟩, db)
      | none =>
        let hashed := bcryptHash password bcryptRounds
        let user : Account := ⟨newId, jsTrim name, normalizeEmail email, hashed, nowT, nowT⟩
        (⟨201, true, some "User registered successfully".toList,
          some (.userData ⟨user.id, user.name, user.email, user.createdAt⟩)⟩, db ++ [user])

/-- Handler of `POST /login`: missing-field check, lookup by normalized email,
bcrypt comparison, then a signed token and the public fields; absent
account and failed comparison produce the same response. -/
def loginHandler (secret : List Char) (expiresIn : Nat) (db : List Account)
    (req : LoginReq) (now : Nat) : HttpResponse :=
  if falsy req.email || falsy req.password then
    ⟨400, false, some "Email and password are required".toList, none⟩
  else
    let email := req.email.getD []
    let password := req.password.getD []
    match db.find? (fun a => decide (a.email = normalizeEmail email)) with
    | none => ⟨401, false, some "Invalid email or password".toList, none⟩
    | some user =>
      if bcryptCompare password user.password = false then
        ⟨401, false, some "Invalid email or password".toList, none⟩
      else
        ⟨200, true, some "Login successful".toList,
          some (.loginData (jwtSign user.id user.email secret now expiresIn)
            ⟨user.id, user.name, user.email, user.createdAt⟩)⟩

/-- Handler of `GET /me` (after the gate): look the authenticated id up and answer
with the public fields plus `updatedAt`. -/
def meHandler (db : List Account) (reqUser : ReqUser) : HttpResponse :=
  match db.find? (fun a => decide (a.id = reqUser.id)) with
  | none => ⟨404, false, some "User not found".toList, none⟩
  | some user =>
    ⟨200, true, some "User retrieved successfully".toList,
      some (.meData ⟨user.id, user.name, user.email, user.createdAt⟩ user.updatedAt)⟩

/-- The storage failures the register catch clause discriminates. -/
inductive MongoError where
  | dupKey11000
  | validationError (msgs : List (List Char))
  | other
deriving DecidableEq

/-- The register catch clause: duplicate-key gives the duplicate answer,
a validation error joins its messages, anything else is a 500. -/
def registerCatch : MongoError → HttpResponse
  | .dupKey11000 => ⟨400, false, some "Email already exists".toList, none⟩
  | .validationError msgs => ⟨400, false, some (List.intercalate ", ".toList msgs), none⟩
  | .other => ⟨500, false, some "Internal server error".toList, none⟩

/-- The login catch clause. -/
def loginCatch : HttpResponse := ⟨500, false, some "Internal server error".toList, none⟩

/-- The me catch clause. -/
def meCatch : HttpResponse := ⟨500, false, some "Internal server error".toList, none⟩

/-- The router: the three handlers produced by `createAuthRouter`,
each closed over the configuration. -/
structure AuthRouter where
  registerRoute : List Account → RegisterReq → List Char → Nat → HttpResponse × List Account
  loginRoute : List Account → LoginReq → Nat → HttpResponse
  meRoute : List Account → ReqUser → HttpResponse

/-- Factory `createAuthRouter` over secret, expiresIn, bcryptRounds (defaults in
the source: 24h and 14): a falsy secret throws at construction,
otherwise the three route handlers are built over the configuration. -/
def createAuthRouter (secret : Option (List Char)) (expiresIn bcryptRounds : Nat) :
    Except ConfigError AuthRouter :=
  match secret with
  | none => .error (.configError "JWT secret is required for createAuthRouter".toList)
  | some s =>
    if s = [] then .error (.configError "JWT secret is required for createAuthRouter".toList)
    else .ok ⟨fun db req newId nowT => registerHandler bcryptRounds db req newId nowT,
      fun db req now => loginHandler s expiresIn db req now,
      fun db u => meHandler db u⟩

/-! ## Lemmas about splitting, trimming and lowering -/

theorem splitSpace_no_space (xs : List Char) (h : ' ' ∉ xs) : splitSpace xs = [xs] := by
  induction xs with
  | nil => rfl
  | cons c r ih =>
    have hc : c ≠ ' ' := fun hc => h (by simp [hc])
    have hr : ' ' ∉ r := fun hr => h (by simp [hr])
    simp [splitSpace, hc, ih hr]

theorem splitSpace_append (xs ys : List Char) (h : ' ' ∉ xs) :
    splitSpace (xs ++ ' ' :: ys) = xs :: splitSpace ys := by
  induction xs with
  | nil => simp [splitSpace]
  | cons c r ih =>
    have hc : c ≠ ' ' := fun hc => h (by simp [hc])
    have hr : ' ' ∉ r := fun hr => h (by simp [hr])
    simp [splitSpace, hc, ih hr]

theorem gate_bearer (verify : List Char → VerifyResult) (tok : List Char) (h : ' ' ∉ tok) :
    authMiddlewareHandler verify (some ("Bearer ".toList ++ tok)) = gateOnVerify (verify tok) := by
  have e : "Bearer ".toList ++ tok = "Bearer".toList ++ ' ' :: tok := rfl
  have hsplit : splitSpace ("Bearer ".toList ++ tok) = ["Bearer".toList, tok] := by
    rw [e, splitSpace_append _ _ (by decide), splitSpace_no_space tok h]
  have hne : "Bearer ".toList ++ tok ≠ [] := by rw [e]; simp
  have hsplit2 : splitSpace ('B' :: 'e' :: 'a' :: 'r' :: 'e' :: 'r' :: ' ' :: tok)
      = [['B', 'e', 'a', 'r', 'e', 'r'], tok] := hsplit
  simp [authMiddlewareHandler, hne, hsplit2]

theorem dropWhile_head_false {p : Char → Bool} {l : List Char} {c : Char} {t : List Char}
    (h : l.dropWhile p = c :: t) : p c = false := by
  induction l with
  | nil => simp [List.dropWhile] at h
  | cons a as ih =>
    rw [List.dropWhile_cons] at h
    by_cases hp : p a
    · exact ih (by simpa [hp] using h)
    · obtain ⟨rfl, -⟩ : a = c ∧ as = t := by simpa [hp] using h
      simpa using hp

theorem dropWhile_idem {p : Char → Bool} (l : List Char) :
    (l.dropWhile p).dropWhile p = l.dropWhile p := by
  cases hd : l.dropWhile p with
  | nil => simp
  | cons c t => simp [List.dropWhile_cons, dropWhile_head_false hd]

theorem jsTrim_drop (l : List Char) : (jsTrim l).dropWhile isJsSpace = jsTrim l := by
  unfold jsTrim
  cases hX : ((l.dropWhile isJsSpace).reverse.dropWhile isJsSpace).reverse with
  | nil => simp
  | cons c t =>
    have hY : l.dropWhile isJsSpace =
        (c :: t) ++ ((l.dropWhile isJsSpace).reverse.takeWhile isJsSpace).reverse := by
      conv_lhs => rw [← (l.dropWhile isJsSpace).reverse_reverse,
        ← List.takeWhile_append_dropWhile isJsSpace (l.dropWhile isJsSpace).reverse]
      rw [List.reverse_append, hX]
    have hc : isJsSpace c = false := dropWhile_head_false (by rw [hY]; rfl)
    simp [List.dropWhile_cons, hc]

theorem jsTrim_idem (l : List Char) : jsTrim (jsTrim l) = jsTrim l := by
  conv_lhs => rw [jsTrim, jsTrim_drop l]
  have h2 : (jsTrim l).reverse = (l.dropWhile isJsSpace).reverse.dropWhile isJsSpace := by
    rw [jsTrim, List.reverse_reverse]
  rw [h2, dropWhile_idem, ← h2, List.reverse_reverse]

theorem charLower_toNat_of_upper {c : Char} (h1 : 65 ≤ c.toNat) (h2 : c.toNat ≤ 90) :
    (Char.ofNat (c.toNat + 32)).toNat = c.toNat + 32 := by
  have hb : ∀ n, n < 91 → 65 ≤ n → (Char.ofNat (n + 32)).toNat = n + 32 := by decide
  exact hb c.toNat (by omega) h1

theorem charLower_idem (c : Char) : charLower (charLower c) = charLower c := by
  unfold charLower
  by_cases h : 65 ≤ c.toNat ∧ c.toNat ≤ 90
  · rw [if_pos h, if_neg]
    rw [charLower_toNat_of_upper h.1 h.2]
    omega
  · rw [if_neg h, if_neg h]

theorem mem_of_mem_dropWhile {c : Char} {p : Char → Bool} {l : List Char}
    (h : c ∈ l.dropWhile p) : c ∈ l := by
  rw [← List.takeWhile_append_dropWhile p l]
  exact List.mem_append_right _ h

theorem mem_of_mem_jsTrim {c : Char} {l : List Char} (h : c ∈ jsTrim l) : c ∈ l := by
  unfold jsTrim at h
  rw [List.mem_reverse] at h
  have h2 := mem_of_mem_dropWhile h
  rw [List.mem_reverse] at h2
  exact mem_of_mem_dropWhile h2

theorem map_eq_self_of {l : List Char} {f : Char → Char} (h : ∀ c ∈ l, f c = c) :
    l.map f = l := by
  induction l with
  | nil => rfl
  | cons a t ih => simp [h a (by simp), ih (fun c hc => h c (by simp [hc]))]

theorem jsLower_mem_fixed {l : List Char} {c : Char} (hc : c ∈ jsLower l) :
    charLower c = c := by
  simp only [jsLower, List.mem_map] at hc
  obtain ⟨d, _, hd⟩ := hc
  rw [← hd]
  exact charLower_idem d

theorem normalizeEmail_idem (e : List Char) :
    normalizeEmail (normalizeEmail e) = normalizeEmail e := by
  unfold normalizeEmail
  have h1 : jsLower (jsTrim (jsLower e)) = jsTrim (jsLower e) :=
    map_eq_self_of (fun c hc => jsLower_mem_fixed (mem_of_mem_jsTrim hc))
  rw [h1]
  exact jsTrim_idem _

theorem gateOnVerify_reject_status {v : VerifyResult} {resp : HttpResponse}
    (h : gateOnVerify v = .reject resp) : resp.status = 401 := by
  cases v with
  | ok u e => simp [gateOnVerify] at h
  | err name =>
    simp only [gateOnVerify] at h
    split_ifs at h <;> (injection h with h2; subst h2; rfl)

/-! ## Claims -/

/-- Claim C1: a token issued by the token service (`jwt.sign` with
payload userId/email) and verified by the auth gate immediately after
issuance — before expiry, with the same secret — is accepted, and the
identity attached to the request is exactly the signed id and email. -/
theorem token_roundtrip_identity (userId email secret : List Char) (now ttl : Nat)
    (h : 0 < ttl) :
    authMiddlewareHandler (fun tok => jwtVerify tok secret now)
      (some ("Bearer ".toList ++ jwtSign userId email secret now ttl))
      = .proceed ⟨userId, email⟩ := by
  have hg := gate_bearer (fun tok => jwtVerify tok secret now)
    (jwtSign userId email secret now ttl) (tokenEnc_no_space _)
  rw [hg]
  show gateOnVerify (jwtVerify (jwtSign userId email secret now ttl) secret now) = _
  unfold jwtSign jwtVerify
  rw [tokenDec_tokenEnc]
  have hexp : ¬(now + ttl ≤ now) := by omega
  simp [hexp, gateOnVerify]

/-- Witness for C1 at a concrete subject, secret and ttl. -/
theorem token_roundtrip_identity_witness :
    authMiddlewareHandler (fun tok => jwtVerify tok "s3cret".toList 100)
      (some ("Bearer ".toList ++ jwtSign "u1".toList "a@b.com".toList "s3cret".toList 100 3600))
      = .proceed ⟨"u1".toList, "a@b.com".toList⟩ :=
  token_roundtrip_identity "u1".toList "a@b.com".toList "s3cret".toList 100 3600 (by decide)

/-- Claim C7: a token with a valid signature whose expiry is at or before
the current time fails verification with the expired kind (gate reason
"Token has expired"), never the invalid-token kind; and the outcomes of
the verifier are exhaustively the success case and those two error kinds. -/
theorem token_expiry_discrimination (t : TokenData) (secret : List Char) (now : Nat)
    (hsig : t.tag = secret) (hexp : t.exp ≤ now) :
    jwtVerify (tokenEnc t) secret now = .err "TokenExpiredError".toList
    ∧ jwtVerify (tokenEnc t) secret now ≠ .err "JsonWebTokenError".toList
    ∧ authMiddlewareHandler (fun tok => jwtVerify tok secret now)
        (some ("Bearer ".toList ++ tokenEnc t))
        = .reject ⟨401, false, some "Token has expired".toList, none⟩
    ∧ (∀ tok, (∃ u e, jwtVerify tok secret now = .ok u e) ∨
        jwtVerify tok secret now = .err "JsonWebTokenError".toList ∨
        jwtVerify tok secret now = .err "TokenExpiredError".toList) := by
  have hv : jwtVerify (tokenEnc t) secret now = .err "TokenExpiredError".toList := by
    unfold jwtVerify
    rw [tokenDec_tokenEnc]
    simp [hsig, hexp]
  refine ⟨hv, by rw [hv]; decide, ?_, ?_⟩
  · have hg := gate_bearer (fun tok => jwtVerify tok secret now) (tokenEnc t)
      (tokenEnc_no_space t)
    rw [hg]
    show gateOnVerify (jwtVerify (tokenEnc t) secret now) = _
    rw [hv]
    decide
  · intro tok
    cases htok : tokenDec tok with
    | none =>
      refine Or.inr (Or.inl ?_)
      simp [jwtVerify, htok]
    | some td =>
      simp only [jwtVerify, htok]
      by_cases h1 : td.tag ≠ secret
      · rw [if_pos h1]
        exact Or.inr (Or.inl rfl)
      · rw [if_neg h1]
        by_cases h2 : td.exp ≤ now
        · rw [if_pos h2]
          exact Or.inr (Or.inr rfl)
        · rw [if_neg h2]
          exact Or.inl ⟨td.userId, td.email, rfl⟩

/-- Witness for C7 at a concrete expired token. -/
theorem token_expiry_discrimination_witness :
    jwtVerify (tokenEnc ⟨"u".toList, "e@f.g".toList, 0, 5, "sec".toList⟩) "sec".toList 5
      = .err "TokenExpiredError".toList :=
  (token_expiry_discrimination ⟨"u".toList, "e@f.g".toList, 0, 5, "sec".toList⟩
    "sec".toList 5 rfl (by decide)).1

/-- Claim C10: a verification error whose kind is neither
JsonWebTokenError nor TokenExpiredError is still rejected with 401 and
"Authentication failed", and every rejection the gate produces — for any
header and any verifier outcome — carries status 401. -/
theorem gate_unknown_error_401 :
    (∀ (verify : List Char → VerifyResult) (hdr : Option (List Char)) (resp : HttpResponse),
      authMiddlewareHandler verify hdr = .reject resp → resp.status = 401)
    ∧ (∀ name : List Char, name ≠ "JsonWebTokenError".toList →
        name ≠ "TokenExpiredError".toList →
        gateOnVerify (.err name)
          = .reject ⟨401, false, some "Authentication failed".toList, none⟩) := by
  constructor
  · intro verify hdr resp h
    cases hdr with
    | none =>
      simp only [authMiddlewareHandler] at h
      injection h with h2
      subst h2
      rfl
    | some hd =>
      simp only [authMiddlewareHandler] at h
      by_cases he : hd = []
      · rw [if_pos he] at h
        injection h with h2
        subst h2
        rfl
      · rw [if_neg he] at h
        by_cases hc : (splitSpace hd).length = 2 ∧ (splitSpace hd).headD [] = "Bearer".toList
        · rw [if_pos hc] at h
          exact gateOnVerify_reject_status h
        · rw [if_neg hc] at h
          injection h with h2
          subst h2
          rfl
  · intro name hn1 hn2
    simp only [gateOnVerify]
    rw [if_neg hn1, if_neg hn2]

/-- Witness for C10 at a concrete unknown error name. -/
theorem gate_unknown_error_401_witness :
    gateOnVerify (.err "NotBeforeError".toList)
      = .reject ⟨401, false, some "Authentication failed".toList, none⟩ :=
  gate_unknown_error_401.2 "NotBeforeError".toList (by decide) (by decide)

/-- Claim C4 counterexample: an authorization header that is present but
empty splits into one token, not two, so the claim predicts the
"invalid header format" rejection; the gate instead answers with the
"authorization required" rejection, because the JavaScript falsiness
check treats the empty string like an absent header. -/
theorem authHeader_gate_counterexample :
    authMiddlewareHandler (fun _ => .err []) (some []) = .reject respMissingAuth
    ∧ splitSpace [] = [[]]
    ∧ respMissingAuth ≠ respBadFormat :=
  ⟨rfl, rfl, by decide⟩

/-- Claim C4 (amended): the gate rejects with "authorization required"
when the header is absent or empty; rejects with "invalid header format"
when the header is present, nonempty, and does not split into exactly
two space-separated parts with first part "Bearer"; only otherwise the
second part is handed to token verification, whose outcome the catch
clause maps. -/
theorem authHeader_gate_amended (verify : List Char → VerifyResult) :
    authMiddlewareHandler verify none = .reject respMissingAuth
    ∧ authMiddlewareHandler verify (some []) = .reject respMissingAuth
    ∧ (∀ h : List Char, h ≠ [] →
        ¬((splitSpace h).length = 2 ∧ (splitSpace h).headD [] = "Bearer".toList) →
        authMiddlewareHandler verify (some h) = .reject respBadFormat)
    ∧ (∀ (h tok : List Char), h ≠ [] → splitSpace h = ["Bearer".toList, tok] →
        authMiddlewareHandler verify (some h) = gateOnVerify (verify tok)) := by
  refine ⟨rfl, rfl, ?_, ?_⟩
  · intro h hne hc
    simp only [authMiddlewareHandler]
    rw [if_neg hne, if_neg hc]
  · intro h tok hne hs
    simp only [authMiddlewareHandler]
    rw [if_neg hne, hs]
    simp

/-- Witness for C4 (amended) at the header "Token xyz" of the
end-to-end example in the spec. -/
theorem authHeader_gate_amended_witness :
    authMiddlewareHandler (fun _ => .err []) (some "Token xyz".toList)
      = .reject respBadFormat :=
  (authHeader_gate_amended (fun _ => .err [])).2.2.1 "Token xyz".toList
    (by decide) (by decide)

/-- Claim C8: a missing or empty secret makes both factories throw a
configuration error at construction time; with a nonempty secret each
factory returns its handlers, closed over that secret, so no per-request
path ever runs without one. -/
theorem ctor_requires_secret :
    authMiddleware none
      = .error (.configError "JWT secret is required for authMiddleware".toList)
    ∧ authMiddleware (some [])
      = .error (.configError "JWT secret is required for authMiddleware".toList)
    ∧ (∀ e r : Nat, createAuthRouter none e r
        = .error (.configError "JWT secret is required for createAuthRouter".toList))
    ∧ (∀ e r : Nat, createAuthRouter (some []) e r
        = .error (.configError "JWT secret is required for createAuthRouter".toList))
    ∧ (∀ s : List Char, s ≠ [] → authMiddleware (some s)
        = .ok (fun header now => authMiddlewareHandler (fun tok => jwtVerify tok s now) header))
    ∧ (∀ (s : List Char) (e r : Nat), s ≠ [] → createAuthRouter (some s) e r
        = .ok ⟨fun db req newId nowT => registerHandler r db req newId nowT,
            fun db req now => loginHandler s e db req now,
            fun db u => meHandler db u⟩) := by
  refine ⟨rfl, rfl, fun e r => rfl, fun e r => rfl, ?_, ?_⟩
  · intro s hs
    simp only [authMiddleware]
    rw [if_neg hs]
  · intro s e r hs
    simp only [createAuthRouter]
    rw [if_neg hs]

/-- Witness for C8 at a concrete nonempty secret. -/
theorem ctor_requires_secret_witness :
    authMiddleware (some "k1".toList)
      = .ok (fun header now =>
          authMiddlewareHandler (fun tok => jwtVerify tok "k1".toList now) header) :=
  ctor_requires_secret.2.2.2.2.1 "k1".toList (by decide)

theorem validatePassword_ne_nil {p : List Char}
    (h : (validatePassword p).isValid = true) : p ≠ [] := by
  rintro rfl
  simp [validatePassword] at h

theorem validatePassword_message_isSome (p : List Char)
    (h : (validatePassword p).isValid = false) : (validatePassword p).message ≠ none := by
  unfold validatePassword at h ⊢
  split_ifs at h ⊢ <;> simp_all

/-- Claim C3: `validate(p)` reports valid exactly when all five rules
hold (length at least 8, an uppercase letter, a lowercase letter, a
digit, a special character); the rules are checked in that order and
the first failing rule determines the single reported reason. -/
theorem validatePassword_spec (p : List Char) :
    ((validatePassword p).isValid = true ↔
      (8 ≤ p.length ∧ p.any isUpperAZ = true ∧ p.any isLowerAZ = true ∧
        p.any isDigit09 = true ∧ p.any isSpecialChar = true))
    ∧ (p.length < 8 → validatePassword p
        = ⟨false, some "Password must be at least 8 characters long".toList⟩)
    ∧ (8 ≤ p.length → p.any isUpperAZ = false → validatePassword p
        = ⟨false, some "Password must contain at least one uppercase letter".toList⟩)
    ∧ (8 ≤ p.length → p.any isUpperAZ = true → p.any isLowerAZ = false → validatePassword p
        = ⟨false, some "Password must contain at least one lowercase letter".toList⟩)
    ∧ (8 ≤ p.length → p.any isUpperAZ = true → p.any isLowerAZ = true →
        p.any isDigit09 = false → validatePassword p
        = ⟨false, some "Password must contain at least one number".toList⟩)
    ∧ (8 ≤ p.length → p.any isUpperAZ = true → p.any isLowerAZ = true →
        p.any isDigit09 = true → p.any isSpecialChar = false → validatePassword p
        = ⟨false, some "Password must contain at least one special character".toList⟩)
    ∧ (8 ≤ p.length → p.any isUpperAZ = true → p.any isLowerAZ = true →
        p.any isDigit09 = true → p.any isSpecialChar = true →
        validatePassword p = ⟨true, none⟩) := by
  refine ⟨?_, ?_, ?_, ?_, ?_, ?_, ?_⟩ <;> unfold validatePassword
  · constructor
    · intro hv
      split_ifs at hv with h1 h2 h3 h4 h5
      all_goals simp at hv
      exact ⟨by omega, by simpa using h2, by simpa using h3,
        by simpa using h4, by simpa using h5⟩
    · rintro ⟨ha, hb, hc, hd, he⟩
      rw [if_neg (by omega), if_neg (by simp [hb]), if_neg (by simp [hc]),
        if_neg (by simp [hd]), if_neg (by simp [he])]
  · intro h1
    rw [if_pos h1]
  · intro h1 h2
    rw [if_neg (by omega), if_pos h2]
  · intro h1 h2 h3
    rw [if_neg (by omega), if_neg (by simp [h2]), if_pos h3]
  · intro h1 h2 h3 h4
    rw [if_neg (by omega), if_neg (by simp [h2]), if_neg (by simp [h3]), if_pos h4]
  · intro h1 h2 h3 h4 h5
    rw [if_neg (by omega), if_neg (by simp [h2]), if_neg (by simp [h3]),
      if_neg (by simp [h4]), if_pos h5]
  · intro h1 h2 h3 h4 h5
    rw [if_neg (by omega), if_neg (by simp [h2]), if_neg (by simp [h3]),
      if_neg (by simp [h4]), if_neg (by simp [h5])]

/-- Witness for C3 at the example password of the spec and at a short one. -/
theorem validatePassword_spec_witness :
    validatePassword "Secure123!".toList = ⟨true, none⟩
    ∧ validatePassword "Ab1!".toList
      = ⟨false, some "Password must be at least 8 characters long".toList⟩ :=
  ⟨(validatePassword_spec "Secure123!".toList).2.2.2.2.2.2
      (by decide) (by decide) (by decide) (by decide) (by decide),
    (validatePassword_spec "Ab1!".toList).2.1 (by decide)⟩

/-- Claim C2: the login response for a nonexistent (normalized) email is
identical — status, message, everything observable — to the response for
an existing email with a non-matching password: both are the unified
invalid-credentials outcome. -/
theorem login_indistinguishable
    (db1 : List Account) (e1 p1 s1 : List Char) (t1 now1 : Nat)
    (db2 : List Account) (e2 p2 s2 : List Char) (t2 now2 : Nat) (u : Account)
    (he1 : e1 ≠ []) (hp1 : p1 ≠ []) (he2 : e2 ≠ []) (hp2 : p2 ≠ [])
    (h1 : db1.find? (fun a => decide (a.email = normalizeEmail e1)) = none)
    (h2 : db2.find? (fun a => decide (a.email = normalizeEmail e2)) = some u)
    (h3 : bcryptCompare p2 u.password = false) :
    loginHandler s1 t1 db1 ⟨some e1, some p1⟩ now1
      = loginHandler s2 t2 db2 ⟨some e2, some p2⟩ now2
    ∧ loginHandler s1 t1 db1 ⟨some e1, some p1⟩ now1
      = ⟨401, false, some "Invalid email or password".toList, none⟩ := by
  have ha : loginHandler s1 t1 db1 ⟨some e1, some p1⟩ now1
      = ⟨401, false, some "Invalid email or password".toList, none⟩ := by
    simp [loginHandler, falsy, List.isEmpty_iff, he1, hp1, h1]
  have hb : loginHandler s2 t2 db2 ⟨some e2, some p2⟩ now2
      = ⟨401, false, some "Invalid email or password".toList, none⟩ := by
    simp [loginHandler, falsy, List.isEmpty_iff, he2, hp2, h2, h3]
  exact ⟨ha.trans hb.symm, ha⟩

/-- Witness for C2: an unknown email against one database, and a known
email with the wrong password against another, produce equal responses. -/
theorem login_indistinguishable_witness :
    loginHandler "s".toList 3600 [] ⟨some "no@x.y".toList, some "pw".toList⟩ 0
      = loginHandler "t".toList 60
          [⟨"i1".toList, "Jo".toList, "a@b.com".toList, ⟨"Secure123!".toList, 14⟩, 0, 0⟩]
          ⟨some "a@b.com".toList, some "Wrong123!".toList⟩ 5 :=
  (login_indistinguishable [] "no@x.y".toList "pw".toList "s".toList 3600 0
    [⟨"i1".toList, "Jo".toList, "a@b.com".toList, ⟨"Secure123!".toList, 14⟩, 0, 0⟩]
    "a@b.com".toList "Wrong123!".toList "t".toList 60 5
    ⟨"i1".toList, "Jo".toList, "a@b.com".toList, ⟨"Secure123!".toList, 14⟩, 0, 0⟩
    (by decide) (by decide) (by decide) (by decide)
    (by decide) (by decide) (by decide)).1

theorem registerHandler_success (rounds : Nat) (db : List Account)
    (n e p newId : List Char) (nowT : Nat)
    (hn : n ≠ []) (he : e ≠ []) (hp : p ≠ [])
    (hv : (validatePassword p).isValid = true)
    (hf : db.find? (fun a => decide (a.email = normalizeEmail e)) = none) :
    registerHandler rounds db ⟨some n, some e, some p⟩ newId nowT
      = (⟨201, true, some "User registered successfully".toList,
          some (.userData ⟨newId, jsTrim n, normalizeEmail e, nowT⟩)⟩,
         db ++ [⟨newId, jsTrim n, normalizeEmail e, bcryptHash p rounds, nowT, nowT⟩]) := by
  simp [registerHandler, falsy, List.isEmpty_iff, hn, he, hp, hv, hf]

/-- Claim C5 counterexample: a registration whose password field is
present but empty. The claim says only absent fields give the
missing-fields rejection, so this request should fail password
validation with the too-short message; the falsiness check of the code check
instead answers with the missing-fields message. -/
theorem register_flow_counterexample :
    (registerHandler 14 [] ⟨some "Jo".toList, some "a@b.com".toList, some []⟩
        "id1".toList 0).1
      = ⟨400, false, some "Name, email, and password are required".toList, none⟩
    ∧ (validatePassword []).message
      = some "Password must be at least 8 characters long".toList
    ∧ "Name, email, and password are required".toList
      ≠ "Password must be at least 8 characters long".toList :=
  ⟨rfl, rfl, by decide⟩

/-- Claim C5 (amended): the flow rejects with the missing-fields message
if any field is absent or empty; otherwise rejects with the policy
message if validation fails; otherwise rejects with the duplicate
message if the directory holds a case-normalized-equal email; otherwise
hashes and persists the account and answers 201 carrying exactly the
public fields id, name, email, createdAt — never the hash. -/
theorem register_flow_amended (rounds : Nat) (db : List Account) (req : RegisterReq)
    (newId : List Char) (nowT : Nat) :
    ((falsy req.name || falsy req.email || falsy req.password) = true →
      registerHandler rounds db req newId nowT
        = (⟨400, false, some "Name, email, and password are required".toList, none⟩, db))
    ∧ (∀ n e p, req = ⟨some n, some e, some p⟩ → n ≠ [] → e ≠ [] → p ≠ [] →
        (validatePassword p).isValid = false →
        registerHandler rounds db req newId nowT
          = (⟨400, false, (validatePassword p).message, none⟩, db))
    ∧ (∀ n e p u, req = ⟨some n, some e, some p⟩ → n ≠ [] → e ≠ [] → p ≠ [] →
        (validatePassword p).isValid = true →
        db.find? (fun a => decide (a.email = normalizeEmail e)) = some u →
        registerHandler rounds db req newId nowT
          = (⟨400, false, some "Email already exists".toList, none⟩, db))
    ∧ (∀ n e p, req = ⟨some n, some e, some p⟩ → n ≠ [] → e ≠ [] → p ≠ [] →
        (validatePassword p).isValid = true →
        db.find? (fun a => decide (a.email = normalizeEmail e)) = none →
        registerHandler rounds db req newId nowT
          = (⟨201, true, some "User registered successfully".toList,
              some (.userData ⟨newId, jsTrim n, normalizeEmail e, nowT⟩)⟩,
             db ++ [⟨newId, jsTrim n, normalizeEmail e, bcryptHash p rounds, nowT, nowT⟩])) := by
  refine ⟨?_, ?_, ?_, ?_⟩
  · intro hb
    unfold registerHandler
    rw [if_pos hb]
  · rintro n e p rfl hn he hp hv
    simp [registerHandler, falsy, List.isEmpty_iff, hn, he, hp, hv]
  · rintro n e p u rfl hn he hp hv hf
    simp [registerHandler, falsy, List.isEmpty_iff, hn, he, hp, hv, hf]
  · rintro n e p rfl hn he hp hv hf
    exact registerHandler_success rounds db n e p newId nowT hn he hp hv hf

/-- Witness for C5 (amended), exercising the successful branch on the
end-to-end example data of the spec. -/
theorem register_flow_amended_witness :
    registerHandler 14 [] ⟨some "Jo".toList, some "A@B.com ".toList, some "Secure123!".toList⟩
        "id1".toList 7
      = (⟨201, true, some "User registered successfully".toList,
          some (.userData ⟨"id1".toList, "Jo".toList, "a@b.com".toList, 7⟩)⟩,
         [⟨"id1".toList, "Jo".toList, "a@b.com".toList, ⟨"Secure123!".toList, 14⟩, 7, 7⟩]) := by
  have h := (register_flow_amended 14 [] ⟨some "Jo".toList, some "A@B.com ".toList,
    some "Secure123!".toList⟩ "id1".toList 7).2.2.2 "Jo".toList "A@B.com ".toList
    "Secure123!".toList rfl (by decide) (by decide) (by decide) (by decide) (by decide)
  rw [h]
  decide

/-- The directory invariant that every stored email is normalized. -/
def normalizedDb (db : List Account) : Prop :=
  ∀ a ∈ db, normalizeEmail a.email = a.email

/-- Claim C6: normalization (lowercase then trim) is applied before
every lookup and store, so registration preserves the all-normalized
directory invariant, a second registration whose email normalizes to the
same value is rejected as duplicate, and logging in with the normalized
form of a registered email finds the account. -/
theorem email_normalization_consistent :
    (∀ (rounds : Nat) (db : List Account) (req : RegisterReq) (newId : List Char) (nowT : Nat),
      normalizedDb db → normalizedDb (registerHandler rounds db req newId nowT).2)
    ∧ (∀ (rounds rounds2 nowT nowT2 : Nat) (db : List Account)
        (n1 e1 p1 newId n2 e2 p2 newId2 : List Char),
        n1 ≠ [] → e1 ≠ [] → p1 ≠ [] → (validatePassword p1).isValid = true →
        db.find? (fun a => decide (a.email = normalizeEmail e1)) = none →
        n2 ≠ [] → e2 ≠ [] → (validatePassword p2).isValid = true →
        normalizeEmail e2 = normalizeEmail e1 →
        (registerHandler rounds2
            (registerHandler rounds db ⟨some n1, some e1, some p1⟩ newId nowT).2
            ⟨some n2, some e2, some p2⟩ newId2 nowT2).1
          = ⟨400, false, some "Email already exists".toList, none⟩)
    ∧ (∀ (rounds nowT ttl now : Nat) (db : List Account) (n1 e1 p1 newId s : List Char),
        n1 ≠ [] → e1 ≠ [] → p1 ≠ [] → (validatePassword p1).isValid = true →
        db.find? (fun a => decide (a.email = normalizeEmail e1)) = none →
        normalizeEmail e1 ≠ [] →
        loginHandler s ttl
            (registerHandler rounds db ⟨some n1, some e1, some p1⟩ newId nowT).2
            ⟨some (normalizeEmail e1), some p1⟩ now
          = ⟨200, true, some "Login successful".toList,
              some (.loginData (jwtSign newId (normalizeEmail e1) s now ttl)
                ⟨newId, jsTrim n1, normalizeEmail e1, nowT⟩)⟩) := by
  refine ⟨?_, ?_, ?_⟩
  · intro rounds db req newId nowT hdb
    simp only [registerHandler]
    split_ifs with h1 h2
    · exact hdb
    · exact hdb
    · split
      · exact hdb
      · intro a ha
        rcases List.mem_append.mp ha with h | h
        · exact hdb a h
        · rw [List.mem_singleton] at h
          subst h
          exact normalizeEmail_idem _
  · intro rounds rounds2 nowT nowT2 db n1 e1 p1 newId n2 e2 p2 newId2
      hn1 he1 hp1 hv1 hf1 hn2 he2 hv2 hnorm
    rw [registerHandler_success rounds db n1 e1 p1 newId nowT hn1 he1 hp1 hv1 hf1]
    simp [registerHandler, falsy, List.isEmpty_iff, hn2, he2,
      validatePassword_ne_nil hv2, hv2, hnorm, List.find?_append, hf1]
  · intro rounds nowT ttl now db n1 e1 p1 newId s hn1 he1 hp1 hv1 hf1 hne
    rw [registerHandler_success rounds db n1 e1 p1 newId nowT hn1 he1 hp1 hv1 hf1]
    simp [loginHandler, falsy, List.isEmpty_iff, hne, hp1, normalizeEmail_idem,
      List.find?_append, hf1, bcryptCompare, bcryptHash]

/-- Witness for C6: registering " A@B.com" and then "a@b.com " hits the
duplicate rejection on the second attempt. -/
theorem email_normalization_consistent_witness :
    (registerHandler 14
        (registerHandler 14 [] ⟨some "Jo".toList, some " A@B.com".toList,
          some "Secure123!".toList⟩ "id1".toList 0).2
        ⟨some "Bo".toList, some "a@b.com ".toList, some "Secure123!".toList⟩
        "id2".toList 1).1
      = ⟨400, false, some "Email already exists".toList, none⟩ :=
  email_normalization_consistent.2.1 14 14 0 1 [] "Jo".toList " A@B.com".toList
    "Secure123!".toList "id1".toList "Bo".toList "a@b.com ".toList "Secure123!".toList
    "id2".toList (by decide) (by decide) (by decide) (by decide) (by decide)
    (by decide) (by decide) (by decide) (by decide)

theorem gateOnVerify_reject_envelope {v : VerifyResult} {resp : HttpResponse}
    (h : gateOnVerify v = .reject resp) : envelopeOk resp := by
  cases v with
  | ok u e => simp [gateOnVerify] at h
  | err name =>
    simp only [gateOnVerify] at h
    split_ifs at h <;> (injection h with h2; subst h2; simp [envelopeOk])

/-- Claim C9: every response the register, login and me handlers and the
auth gate produce carries the top-level success boolean; every failure
additionally carries a message and every success a data payload. -/
theorem response_envelope :
    (∀ (rounds : Nat) (db : List Account) (req : RegisterReq) (newId : List Char) (nowT : Nat),
      envelopeOk (registerHandler rounds db req newId nowT).1)
    ∧ (∀ (s : List Char) (ttl : Nat) (db : List Account) (req : LoginReq) (now : Nat),
      envelopeOk (loginHandler s ttl db req now))
    ∧ (∀ (db : List Account) (u : ReqUser), envelopeOk (meHandler db u))
    ∧ (∀ (verify : List Char → VerifyResult) (hdr : Option (List Char)) (resp : HttpResponse),
      authMiddlewareHandler verify hdr = .reject resp → envelopeOk resp)
    ∧ (∀ e : MongoError, envelopeOk (registerCatch e))
    ∧ envelopeOk loginCatch ∧ envelopeOk meCatch := by
  refine ⟨?_, ?_, ?_, ?_, ?_, ?_, ?_⟩
  · intro rounds db req newId nowT
    simp only [registerHandler]
    split_ifs with h1 h2
    · simp [envelopeOk]
    · exact ⟨fun _ => validatePassword_message_isSome _ h2, fun h => by simp at h⟩
    · split
      · simp [envelopeOk]
      · simp [envelopeOk]
  · intro s ttl db req now
    simp only [loginHandler]
    split_ifs with h1
    · simp [envelopeOk]
    · split
      · simp [envelopeOk]
      · split_ifs with h2 <;> simp [envelopeOk]
  · intro db u
    simp only [meHandler]
    split <;> simp [envelopeOk]
  · intro verify hdr resp h
    cases hdr with
    | none =>
      simp only [authMiddlewareHandler] at h
      injection h with h2
      subst h2
      simp [envelopeOk, respMissingAuth]
    | some hd =>
      simp only [authMiddlewareHandler] at h
      by_cases he : hd = []
      · rw [if_pos he] at h
        injection h with h2
        subst h2
        simp [envelopeOk, respMissingAuth]
      · rw [if_neg he] at h
        by_cases hc : (splitSpace hd).length = 2 ∧ (splitSpace hd).headD [] = "Bearer".toList
        · rw [if_pos hc] at h
          exact gateOnVerify_reject_envelope h
        · rw [if_neg hc] at h
          injection h with h2
          subst h2
          simp [envelopeOk, respBadFormat]
  · intro e
    cases e <;> simp [envelopeOk, registerCatch]
  · simp [envelopeOk, loginCatch]
  · simp [envelopeOk, meCatch]

/-- Witness for C9 through the gate-rejection conjunct at the missing
header rejection. -/
theorem response_envelope_witness : envelopeOk respMissingAuth :=
  response_envelope.2.2.2.1 (fun _ => .err []) none respMissingAuth rfl

end SecureAuth
